import Mathlib

/-
Verification of the syntax-tree core in src/syntax/mod.rs: the type-erased
Model capability, the ModelBounds equality/clone/downcast adapter, the Node
enumeration and the SyntaxModel container.

Rust's type erasure (`Box<dyn Model>`, `Any::downcast_ref`) is embedded by a
signature `ModelSig` describing the open family of concrete types eligible for
erasure: an index type standing for the runtime `TypeId` (with decidable
identity, as `Any` provides), the concrete carrier of each index, and each
concrete type's own `PartialEq` and `Clone`. An erased value is then a
dependent pair of an index and a carrier value, and the adapter operations
`downcast`, `bound_eq` and `bound_clone` are translated directly from the
source. Types from elsewhere in the crate (`Spanned`, `Pass`, `Feedback`,
`Command`, `LayoutContext`) are modelled from the spec, as noted on each.
-/

namespace Typst

/-- Modelled from the spec: a source span over source offsets, `{start, end}`
(spec section 3); the concrete `Span` lives in syntax/span.rs, outside the
excerpt. The tree treats spans as pure metadata. -/
structure Span where
  start : Nat
  stop : Nat
deriving DecidableEq

/-- Modelled from the spec: the generic wrapper pairing a value with a span,
`Spanned<T> = { span, value }` (spec section 3); the concrete `Spanned` lives
in syntax/span.rs, outside the excerpt. Rust's field name is `v`. -/
structure Spanned (α : Type) where
  span : Span
  v : α

/-- Modelled from the spec: `SpanVec<T>`, an ordered, insertion-order
significant sequence of spanned values (spec section 3); the alias lives in
syntax/span.rs, outside the excerpt. -/
abbrev SpanVec (α : Type) := List (Spanned α)

/-- Modelled from the spec: a single diagnostic record, minimally
`{message, severity, span}` (spec sections 7 and 9); the concrete type lives
outside the excerpt. -/
structure Diagnostic where
  message : String
  isError : Bool
  span : Span
deriving DecidableEq

/-- Modelled from the spec: the accumulated diagnostics bundle returned next
to layout output (spec section 7); `Feedback` lives in the crate root, outside
the excerpt. -/
structure Feedback where
  diagnostics : List Diagnostic
deriving DecidableEq

/-- Modelled from the spec: `Feedback::new()`, the empty bundle. -/
def Feedback.new : Feedback := ⟨[]⟩

/-- Modelled from the spec: `Pass<T>`, a primary output bundled with feedback
(spec section 7, the result-plus-side-log contract); lives in the crate root,
outside the excerpt. -/
structure Pass (α : Type) where
  output : α
  feedback : Feedback

/-- Modelled from the spec: `Pass::new(output, feedback)`. -/
def Pass.new {α : Type} (output : α) (feedback : Feedback) : Pass α :=
  ⟨output, feedback⟩

/-- Source src/syntax/mod.rs lines 97-131: `Decoration`, the closed tag
enumeration for semantic syntax highlighting. -/
inductive Decoration where
  | validFuncName
  | invalidFuncName
  | argumentKey
  | objectKey
  | italic
  | bold
deriving DecidableEq

/-- The open family of concrete types eligible for erasure behind
`Box<dyn Model>`: per src/syntax/mod.rs lines 152-168, every `'static` type
that is `Model`, `PartialEq` and `Clone` qualifies. `Index` stands for the
runtime `TypeId` with its decidable identity test (what `Any::downcast_ref`
consults), `Conc i` is the concrete type with id `i`, `peq i` is that type's
own `PartialEq` and `clone i` its own `Clone`. -/
structure ModelSig where
  Index : Type
  deceq : DecidableEq Index
  Conc : Index → Type
  peq : ∀ i, Conc i → Conc i → Bool
  clone : ∀ i, Conc i → Conc i

instance instDecEqIndex (S : ModelSig) : DecidableEq S.Index := S.deceq

/-- An erased `Box<dyn Model>` value (src/syntax/mod.rs line 77): a concrete
runtime type together with an owned value of that type. -/
def DynModel (S : ModelSig) := (i : S.Index) × S.Conc i

namespace DynModel

/-- Source src/syntax/mod.rs lines 133-138 with 169-171: `dyn Model::downcast`
via `self.as_any().downcast_ref::<T>()` — the checked downcast of the erased
value to the concrete type with id `j`, yielding `none` on a runtime type
mismatch rather than failing. -/
def downcast (S : ModelSig) (m : DynModel S) (j : S.Index) : Option (S.Conc j) :=
  if h : m.fst = j then some (h ▸ m.snd) else none

/-- Source src/syntax/mod.rs lines 173-178 (`ModelBounds::bound_eq`), exposed
as `PartialEq for dyn Model` at lines 140-144: downcast `other` to `self`'s
own concrete type; if that fails the values are unequal, otherwise delegate to
the concrete type's own equality. -/
def bound_eq (S : ModelSig) (m1 m2 : DynModel S) : Bool :=
  match downcast S m2 m1.fst with
  | some o => S.peq m1.fst m1.snd o
  | none => false

/-- Source src/syntax/mod.rs lines 180-182 (`ModelBounds::bound_clone`),
exposed as `Clone for Box<dyn Model>` at lines 146-150: invoke the concrete
type's own clone and re-erase the result. -/
def bound_clone (S : ModelSig) (m : DynModel S) : DynModel S :=
  ⟨m.fst, S.clone m.fst m.snd⟩

end DynModel

/-- Source src/syntax/mod.rs lines 59-78: `Node`, the closed set of built-in
kinds plus the open `Model` extension kind holding an erased value. -/
inductive Node (S : ModelSig) where
  | space
  | parbreak
  | linebreak
  | text (s : String)
  | raw (lines : List String)
  | toggleItalic
  | toggleBolder
  | model (m : DynModel S)

namespace Node

/-- Source src/syntax/mod.rs lines 80-95: `PartialEq for Node` — same-variant
structural equality on the data variants, `PartialEq for dyn Model` on the
extension variant, `false` across variants. -/
def eq {S : ModelSig} : Node S → Node S → Bool
  | space, space => true
  | parbreak, parbreak => true
  | linebreak, linebreak => true
  | text a, text b => a == b
  | raw a, raw b => a == b
  | toggleItalic, toggleItalic => true
  | toggleBolder, toggleBolder => true
  | model a, model b => DynModel.bound_eq S a b
  | _, _ => false

/-- The variant discriminant of a node (Rust's `std::mem::discriminant`);
used only to state cross-variant properties. -/
def tag {S : ModelSig} : Node S → Nat
  | space => 0
  | parbreak => 1
  | linebreak => 2
  | text _ => 3
  | raw _ => 4
  | toggleItalic => 5
  | toggleBolder => 6
  | model _ => 7

/-- Source src/syntax/mod.rs line 60: the derived `Clone for Node` — a
structural copy, with the `Model` variant going through
`Clone for Box<dyn Model>` (lines 146-150). -/
def clone {S : ModelSig} : Node S → Node S
  | space => space
  | parbreak => parbreak
  | linebreak => linebreak
  | text s => text s
  | raw lines => raw lines
  | toggleItalic => toggleItalic
  | toggleBolder => toggleBolder
  | model m => model (DynModel.bound_clone S m)

end Node

/-- Derived `PartialEq` over a `Spanned` wrapper given the payload's equality:
span and value both compare equal. Modelled from the spec (syntax/span.rs is
outside the excerpt; `Spanned` derives `PartialEq`). -/
def Spanned.eqBy {α : Type} (eqv : α → α → Bool) (a b : Spanned α) : Bool :=
  decide (a.span = b.span) && eqv a.v b.v

/-- Derived `PartialEq` over a `Vec` given the element equality: equal length
and pointwise equal, in order. -/
def listEqBy {α : Type} (eqv : α → α → Bool) : List α → List α → Bool
  | [], [] => true
  | x :: xs, y :: ys => eqv x y && listEqBy eqv xs ys
  | _, _ => false

/-- Source src/syntax/mod.rs lines 33-38: `SyntaxModel`, the tree — an
ordered sequence of spanned nodes. -/
structure SyntaxModel (S : ModelSig) where
  nodes : SpanVec (Node S)

namespace SyntaxModel

/-- Source src/syntax/mod.rs lines 42-44: `SyntaxModel::new()`, the empty
model. -/
def new (S : ModelSig) : SyntaxModel S := ⟨[]⟩

/-- Source src/syntax/mod.rs lines 47-49: `SyntaxModel::add` — `Vec::push`,
appending the spanned node at the end of the sequence. -/
def add {S : ModelSig} (m : SyntaxModel S) (n : Spanned (Node S)) : SyntaxModel S :=
  ⟨m.nodes ++ [n]⟩

/-- Source src/syntax/mod.rs line 34: the derived `PartialEq for SyntaxModel`
— sequence equality of the spanned nodes in order. -/
def eq {S : ModelSig} (a b : SyntaxModel S) : Bool :=
  listEqBy (Spanned.eqBy Node.eq) a.nodes b.nodes

/-- Source src/syntax/mod.rs line 34: the derived `Clone for SyntaxModel` —
clone every spanned node, each node through `Node`'s clone. -/
def clone {S : ModelSig} (m : SyntaxModel S) : SyntaxModel S :=
  ⟨m.nodes.map fun sp => ⟨sp.span, sp.v.clone⟩⟩

end SyntaxModel

/-- Modelled from the spec: a layout command. The payload is produced and
interpreted entirely by the external layout engine (spec section 6) except for
the one constructor the excerpt itself uses, `Command::LayoutSyntaxModel`
(src/syntax/mod.rs line 55), which names a syntax model to render. `Command`
lives in crate::layout, outside the excerpt; the remaining variants are kept
abstract. -/
inductive Command (S : ModelSig) where
  | layoutSyntaxModel (m : SyntaxModel S)
  | external (payload : Nat)

/-- Modelled from the spec: `Commands`, the sequence of layout commands a
layout returns (crate::layout, outside the excerpt). -/
abbrev Commands (S : ModelSig) := List (Command S)

/-- Source src/syntax/mod.rs lines 26-31: the `Model` capability — one
operation, `layout`, receiving `self` by shared borrow together with a
borrowed layout context, and returning commands plus feedback. The `&'a self`
receiver is embedded as a plain function argument: the operation observes the
value and returns no replacement for it. `Ctx` stands for the borrowed
`LayoutContext<'_>`, which is opaque to this core (spec section 6). -/
structure ModelImpl (S : ModelSig) (Ctx : Type) (α : Type) where
  layout : α → Ctx → Pass (Commands S)

/-- A driver invocation of `Model::layout` with the state threading made
explicit: because the callee holds `self` only by shared borrow
(src/syntax/mod.rs line 30), the model the driver retains after the call is
the very model it passed in, next to the returned pass. -/
def ModelImpl.layoutCall {S : ModelSig} {Ctx α : Type}
    (M : ModelImpl S Ctx α) (m : α) (ctx : Ctx) : α × Pass (Commands S) :=
  (m, M.layout m ctx)

/-- Source src/syntax/mod.rs lines 52-57: `Model for SyntaxModel` — layout
emits exactly the single command to lay out this model's nodes, with a fresh
empty feedback bundle, ignoring the context. -/
def SyntaxModel.layout {S : ModelSig} {Ctx : Type}
    (m : SyntaxModel S) (_ : Ctx) : Pass (Commands S) :=
  Pass.new [Command.layoutSyntaxModel m] Feedback.new

/-- Packaging src/syntax/mod.rs lines 52-57 as an instance of the capability
interface. -/
def SyntaxModel.asModel (S : ModelSig) (Ctx : Type) :
    ModelImpl S Ctx (SyntaxModel S) :=
  ⟨SyntaxModel.layout⟩

/-- A two-type concrete universe used to exercise the adapter on closed
inputs: runtime type `true` carries `Nat`, runtime type `false` carries
`String`, each with its own structural equality and a value-identical clone
(both carriers are plain data, so their Rust `Clone` is a plain copy). -/
@[reducible] def exConc : Bool → Type
  | true => Nat
  | false => String

/-- Concrete structural equality of the two example carrier types. -/
def exPeq : (i : Bool) → exConc i → exConc i → Bool
  | true, a, b => a == b
  | false, a, b => a == b

/-- Concrete clone of the two example carrier types. -/
def exClone : (i : Bool) → exConc i → exConc i
  | _, a => a

/-- The example signature with the two concrete types above. -/
@[reducible] def exSig : ModelSig := ⟨Bool, inferInstance, exConc, exPeq, exClone⟩

/-- Helper: a lawful boolean equality is commutative. -/
theorem beq_comm_of_lawful {α : Type} [BEq α] [LawfulBEq α] (x y : α) :
    (x == y) = (y == x) := by
  rw [Bool.eq_iff_iff, beq_iff_eq, beq_iff_eq]
  exact eq_comm

namespace DynModel

/-- Helper: downcasting an erased value to its own runtime type succeeds and
yields the payload itself. -/
theorem downcast_self (S : ModelSig) (i : S.Index) (x : S.Conc i) :
    downcast S ⟨i, x⟩ i = some x := by
  unfold downcast
  rw [dif_pos rfl]

/-- Helper: downcasting an erased value to a different runtime type yields
`none`. -/
theorem downcast_ne (S : ModelSig) (i j : S.Index) (x : S.Conc i)
    (h : i ≠ j) : downcast S ⟨i, x⟩ j = none := by
  unfold downcast
  exact dif_neg h

/-- Helper: erased equality of two values of one runtime type is the concrete
type's own equality on the payloads. -/
theorem bound_eq_same (S : ModelSig) (i : S.Index) (x y : S.Conc i) :
    bound_eq S ⟨i, x⟩ ⟨i, y⟩ = S.peq i x y := by
  simp only [bound_eq, downcast_self]

/-- Helper: erased equality across two distinct runtime types is `false`. -/
theorem bound_eq_cross (S : ModelSig) (i j : S.Index)
    (x : S.Conc i) (y : S.Conc j) (h : i ≠ j) :
    bound_eq S ⟨i, x⟩ ⟨j, y⟩ = false := by
  simp only [bound_eq, downcast_ne S j i y (fun hh => h hh.symm)]

end DynModel

/-- C1: erased equality between two `Box<dyn Model>` values whose concrete
runtime types differ returns `false`, whatever the payloads — the downcast of
`other` inside `bound_eq` (src/syntax/mod.rs lines 173-178) fails and the
`None` arm returns `false`, with no fault possible. -/
theorem c1_cross_type_eq_false (S : ModelSig) (m1 m2 : DynModel S)
    (h : m1.fst ≠ m2.fst) : DynModel.bound_eq S m1 m2 = false := by
  obtain ⟨i, x⟩ := m1
  obtain ⟨j, y⟩ := m2
  exact DynModel.bound_eq_cross S i j x y h

/-- C1 witness: a `Nat`-typed erased value (runtime type `true`) compared with
a `String`-typed one (runtime type `false`) is unequal. -/
theorem c1_witness :
    DynModel.bound_eq exSig ⟨true, (3 : Nat)⟩ ⟨false, ("hi" : String)⟩ = false :=
  c1_cross_type_eq_false exSig ⟨true, (3 : Nat)⟩ ⟨false, ("hi" : String)⟩
    (by decide)

/-- C2: erased equality of two values of the same concrete runtime type is
exactly that type's own structural equality on the two payloads — the
downcast inside `bound_eq` (src/syntax/mod.rs lines 173-178) succeeds and the
comparison is delegated. -/
theorem c2_same_type_delegates (S : ModelSig) (i : S.Index) (x y : S.Conc i) :
    DynModel.bound_eq S ⟨i, x⟩ ⟨i, y⟩ = S.peq i x y :=
  DynModel.bound_eq_same S i x y

/-- C3: downcast round-trip — downcasting an erased value to its own concrete
type succeeds with the original payload, and downcasting to any other type
yields the empty optional result (src/syntax/mod.rs lines 133-138, 169-171),
never an abort. -/
theorem c3_downcast_roundtrip (S : ModelSig) (i j : S.Index) (x : S.Conc i)
    (h : j ≠ i) :
    DynModel.downcast S ⟨i, x⟩ i = some x ∧
    DynModel.downcast S ⟨i, x⟩ j = none :=
  ⟨DynModel.downcast_self S i x,
   DynModel.downcast_ne S i j x (fun hh => h hh.symm)⟩

/-- C3 witness: a `Nat`-typed erased value downcasts to `Nat` (runtime type
`true`) as `some 3` and to `String` (runtime type `false`) as `none`. -/
theorem c3_witness :
    DynModel.downcast exSig ⟨true, (3 : Nat)⟩ true = some 3 ∧
    DynModel.downcast exSig ⟨true, (3 : Nat)⟩ false = none :=
  c3_downcast_roundtrip exSig true false (3 : Nat) (by decide)

/-- C4: the layout of a `SyntaxModel` (src/syntax/mod.rs lines 52-57) always
succeeds with exactly one command — the instruction to lay out this very
model — and an empty feedback bundle, for every model and every context. -/
theorem c4_syntax_model_layout (S : ModelSig) (Ctx : Type)
    (m : SyntaxModel S) (c : Ctx) :
    (SyntaxModel.layout m c).output = [Command.layoutSyntaxModel m] ∧
    (SyntaxModel.layout m c).feedback = Feedback.new ∧
    (SyntaxModel.layout m c).feedback.diagnostics = [] :=
  ⟨rfl, rfl, rfl⟩

/-- C5: `Node` equality (src/syntax/mod.rs lines 80-95) — `false` whenever
the variants differ, structural equality of the payload for equal non
extension variants, and delegation to the erased `dyn Model` equality for two
extension variants. -/
theorem c5_node_eq_by_variant (S : ModelSig) :
    (∀ a b : Node S, Node.tag a ≠ Node.tag b → Node.eq a b = false) ∧
    ((Node.eq (Node.space : Node S) Node.space = true) ∧
     (Node.eq (Node.parbreak : Node S) Node.parbreak = true) ∧
     (Node.eq (Node.linebreak : Node S) Node.linebreak = true) ∧
     (∀ s : String, Node.eq (Node.text s : Node S) (Node.text s) = true) ∧
     (∀ lines : List String,
        Node.eq (Node.raw lines : Node S) (Node.raw lines) = true) ∧
     (Node.eq (Node.toggleItalic : Node S) Node.toggleItalic = true) ∧
     (Node.eq (Node.toggleBolder : Node S) Node.toggleBolder = true)) ∧
    (∀ m1 m2 : DynModel S,
      Node.eq (Node.model m1) (Node.model m2) = DynModel.bound_eq S m1 m2) := by
  refine ⟨?_, ⟨rfl, rfl, rfl, ?_, ?_, rfl, rfl⟩, fun m1 m2 => rfl⟩
  · intro a b h
    cases a <;> cases b <;> first | rfl | exact (h rfl).elim
  · intro s
    simp [Node.eq]
  · intro lines
    simp [Node.eq]

/-- C5 witness: two nodes of different variants compare unequal. -/
theorem c5_witness :
    Node.eq (Node.space : Node exSig) (Node.text "x") = false :=
  (c5_node_eq_by_variant exSig).1 Node.space (Node.text "x") (by decide)

/-- C6: `SyntaxModel::new()` has zero nodes and `add` appends at the end of
the sequence (src/syntax/mod.rs lines 40-50): adding `s1` then `s2` to a new
model yields the node sequence `[s1, s2]`, and in general `add` appends one
node after the existing ones. -/
theorem c6_new_empty_add_appends (S : ModelSig)
    (s1 s2 : Spanned (Node S)) :
    (SyntaxModel.new S).nodes = [] ∧
    (((SyntaxModel.new S).add s1).add s2).nodes = [s1, s2] ∧
    (∀ (m : SyntaxModel S) (n : Spanned (Node S)),
        (m.add n).nodes = m.nodes ++ [n]) :=
  ⟨rfl, rfl, fun _ _ => rfl⟩

namespace DynModel

/-- Helper: cloning an erased value re-erases the concrete type's own clone,
so whenever the concrete clone preserves the concrete equality, the erased
clone is erased-equal to the original. -/
theorem bound_clone_eq (S : ModelSig)
    (hc : ∀ i x, S.peq i (S.clone i x) x = true) (m : DynModel S) :
    bound_eq S (bound_clone S m) m = true := by
  obtain ⟨i, x⟩ := m
  show bound_eq S ⟨i, S.clone i x⟩ ⟨i, x⟩ = true
  rw [bound_eq_same]
  exact hc i x

end DynModel

/-- Helper: under lawful concrete clones, cloning a node preserves node
equality. -/
theorem node_clone_eq (S : ModelSig)
    (hc : ∀ i x, S.peq i (S.clone i x) x = true) (n : Node S) :
    Node.eq (Node.clone n) n = true := by
  cases n
  case model m => exact DynModel.bound_clone_eq S hc m
  case text s => simp [Node.eq, Node.clone]
  case raw lines => simp [Node.eq, Node.clone]
  all_goals rfl

/-- Helper: under lawful concrete clones, the deep copy of a syntax model is
sequence-equal to the original. -/
theorem syntaxModel_clone_eq (S : ModelSig)
    (hc : ∀ i x, S.peq i (S.clone i x) x = true) (sm : SyntaxModel S) :
    SyntaxModel.eq (SyntaxModel.clone sm) sm = true := by
  obtain ⟨ns⟩ := sm
  show listEqBy (Spanned.eqBy Node.eq)
      (ns.map fun sp => ⟨sp.span, sp.v.clone⟩) ns = true
  induction ns with
  | nil => rfl
  | cons sp rest ih =>
      simp only [List.map_cons, listEqBy, Bool.and_eq_true]
      refine ⟨?_, ih⟩
      simp [Spanned.eqBy, node_clone_eq S hc sp.v]

/-- C7: cloning preserves erased equality, and cloning a `SyntaxModel` deep
copies every node, the extension variant going through the erased value's own
clone re-erased (src/syntax/mod.rs lines 146-150, 180-182), so the clone
equals the original. The hypothesis is the concrete types' own clone
contract (spec section 3): each concrete clone preserves that type's own
equality. Storage aliasing is below the value-level embedding; in the code
`bound_clone`'s `Box::new` allocates fresh storage by construction. -/
theorem c7_clone_preserves_equality (S : ModelSig)
    (hc : ∀ i x, S.peq i (S.clone i x) x = true) :
    (∀ m : DynModel S,
        DynModel.bound_eq S (DynModel.bound_clone S m) m = true) ∧
    (∀ m : DynModel S,
        DynModel.bound_clone S m = ⟨m.fst, S.clone m.fst m.snd⟩) ∧
    (∀ sm : SyntaxModel S,
        SyntaxModel.eq (SyntaxModel.clone sm) sm = true) :=
  ⟨DynModel.bound_clone_eq S hc, fun _ => rfl, syntaxModel_clone_eq S hc⟩

/-- C7 witness: cloning a concrete `String`-typed erased value preserves
erased equality, and the deep copy of a two-node model — a text node and an
extension node — is sequence-equal to the original. -/
theorem c7_witness :
    DynModel.bound_eq exSig
      (DynModel.bound_clone exSig ⟨false, ("hi" : String)⟩)
      ⟨false, ("hi" : String)⟩ = true ∧
    SyntaxModel.eq
      (SyntaxModel.clone
        (⟨[⟨⟨0, 2⟩, Node.text "ab"⟩,
           ⟨⟨2, 3⟩, Node.model ⟨true, (7 : Nat)⟩⟩]⟩ : SyntaxModel exSig))
      ⟨[⟨⟨0, 2⟩, Node.text "ab"⟩,
        ⟨⟨2, 3⟩, Node.model ⟨true, (7 : Nat)⟩⟩]⟩ = true := by
  have hc : ∀ i x, exSig.peq i (exSig.clone i x) x = true := by
    intro i x
    cases i <;> exact beq_self_eq_true x
  exact ⟨(c7_clone_preserves_equality exSig hc).1 ⟨false, ("hi" : String)⟩,
         (c7_clone_preserves_equality exSig hc).2.2 _⟩

/-- C8: a layout invocation leaves the model it is invoked on unchanged and
returns nothing beyond the pass (commands plus feedback): the capability
receives `self` by shared borrow (src/syntax/mod.rs line 30), so the explicit
state-passing form of the call returns the model exactly as it was passed
in. -/
theorem c8_layout_does_not_mutate (S : ModelSig) (Ctx α : Type)
    (M : ModelImpl S Ctx α) (m : α) (c : Ctx) :
    (M.layoutCall m c).1 = m ∧ (M.layoutCall m c).2 = M.layout m c :=
  ⟨rfl, rfl⟩

/-- C9: the layout of a `SyntaxModel` ignores the layout context
(src/syntax/mod.rs line 54 binds it as `_`): any two contexts produce the
same commands and the same feedback. -/
theorem c9_layout_context_independent (S : ModelSig) (Ctx : Type)
    (m : SyntaxModel S) (c1 c2 : Ctx) :
    SyntaxModel.layout m c1 = SyntaxModel.layout m c2 :=
  rfl

/-- C10: erased equality is symmetric whenever every concrete type's own
equality is: across runtime types both directions are `false`, inside one
runtime type the two directions are the concrete comparison with the
arguments swapped (src/syntax/mod.rs lines 140-144, 173-178). -/
theorem c10_bound_eq_symmetric (S : ModelSig)
    (hsym : ∀ i x y, S.peq i x y = S.peq i y x)
    (m1 m2 : DynModel S) :
    DynModel.bound_eq S m1 m2 = DynModel.bound_eq S m2 m1 := by
  obtain ⟨i, x⟩ := m1
  obtain ⟨j, y⟩ := m2
  by_cases h : i = j
  · subst h
    rw [DynModel.bound_eq_same, DynModel.bound_eq_same]
    exact hsym i x y
  · rw [DynModel.bound_eq_cross S i j x y h,
        DynModel.bound_eq_cross S j i y x (fun hh => h hh.symm)]

/-- C10 witness: symmetry on two same-type erased values over the example
signature, whose concrete equalities are the lawful ones of `Nat` and
`String`. -/
theorem c10_witness :
    DynModel.bound_eq exSig ⟨true, (3 : Nat)⟩ ⟨true, (4 : Nat)⟩ =
      DynModel.bound_eq exSig ⟨true, (4 : Nat)⟩ ⟨true, (3 : Nat)⟩ := by
  have hsym : ∀ i x y, exSig.peq i x y = exSig.peq i y x := by
    intro i x y
    cases i <;> exact beq_comm_of_lawful x y
  exact c10_bound_eq_symmetric exSig hsym ⟨true, (3 : Nat)⟩ ⟨true, (4 : Nat)⟩

end Typst
